import Mathlib

/-!
Verification of the risk-dashboard computation engine (`src/app.py`).

The engine is embedded shallowly:

* Real-valued machine arithmetic is modelled with `ℚ` (exact arithmetic).
* numpy's legacy global random state (`np.random.seed` / subsequent draws) is
  modelled by `NpRandom`, a pure stream position: a seed plus a counter.  Each
  scalar draw consumes one position of a concrete deterministic word stream
  `npWord`.  What the development relies on is exactly the documented library
  contract: seeding makes the stream a pure function of the seed, `uniform a b`
  lands in `[a, b)`, and the legacy Gaussian generator produces draws within a
  small bounded number of standard deviations of the mean (the polar method on
  53-bit uniforms cannot produce `|z|` beyond about 9.5); here the standard
  normal draw is modelled as `12*u - 6` for a unit uniform `u`, so it lies in
  `[-6, 6)`.
* A pandas `DataFrame` of positions is a `List Position`; the in-place column
  assignment performed by `simulate_scenario_pnl` is made explicit by returning
  both the function's return value and the caller's frame after the call.
-/

/-- A word of the modelled pseudo-random stream: a pure function of the seed
and of the position (`counter`) in the stream, reduced into `[0, 2^31)`. -/
def npWord (seed counter : ℕ) : ℕ :=
  (1103515245 * (12345 * counter + seed + 1) + 12345) % 2 ^ 31

/-- The numpy legacy global random state: the seed installed by
`np.random.seed` together with the number of scalar draws consumed since. -/
structure NpRandom where
  seed : ℕ
  counter : ℕ
deriving DecidableEq, Repr

/-- `np.random.seed(seed)`: replaces the global state, resetting the stream. -/
def np_random_seed (seed : ℕ) : NpRandom := ⟨seed, 0⟩

/-- One unit-uniform draw in `[0, 1)`, advancing the stream. -/
def nextU (s : NpRandom) : ℚ × NpRandom :=
  ((npWord s.seed s.counter : ℚ) / 2 ^ 31, ⟨s.seed, s.counter + 1⟩)

/-- `np.random.uniform(a, b)`: a draw in `[a, b)`. -/
def np_uniform (a b : ℚ) (s : NpRandom) : ℚ × NpRandom :=
  (a + (b - a) * (nextU s).1, (nextU s).2)

/-- `np.random.normal(mu, sigma)`: the legacy Gaussian draw, modelled as a
bounded draw `mu + sigma * z` with `z = 12*u - 6 ∈ [-6, 6)` for a unit
uniform `u` (numpy's legacy generator produces bounded `z` as well). -/
def np_normal (mu sigma : ℚ) (s : NpRandom) : ℚ × NpRandom :=
  (mu + sigma * (12 * (nextU s).1 - 6), (nextU s).2)

/-- `np.random.randint(lo, hi)`: an integer draw in `[lo, hi)`. -/
def np_randint (lo hi : ℕ) (s : NpRandom) : ℕ × NpRandom :=
  (lo + npWord s.seed s.counter % (hi - lo), ⟨s.seed, s.counter + 1⟩)

/-- `np.random.choice(["Equity", "Fixed Income", "FX", "Commodity"],
p=[0.5, 0.2, 0.15, 0.15])`: a categorical draw by cumulative thresholds on a
unit uniform. -/
def np_choice_asset_class (s : NpRandom) : String × NpRandom :=
  (if (nextU s).1 < 1 / 2 then "Equity"
   else if (nextU s).1 < 7 / 10 then "Fixed Income"
   else if (nextU s).1 < 17 / 20 then "FX"
   else "Commodity", (nextU s).2)

/-- An array draw of `n` scalars (numpy's size-`n` vectorized draw), consuming
`n` stream positions in order. -/
def drawList {α : Type} (f : NpRandom → α × NpRandom) : ℕ → NpRandom → List α × NpRandom
  | 0, s => ([], s)
  | n + 1, s =>
      let x := f s
      let rest := drawList f n x.2
      (x.1 :: rest.1, rest.2)

/-- numpy's `.round(d)`: round to `d` decimal places. -/
def np_round (d : ℕ) (x : ℚ) : ℚ := (round (x * 10 ^ d) : ℤ) / 10 ^ d

/-- `sum(ord(c) for c in portfolio_name)`: the seed derivation. -/
def charSum (s : String) : ℕ := (s.data.map Char.toNat).sum

/-- One row of the position DataFrame built by `generate_dummy_positions`;
`ScenarioPnL` is the column added later by `simulate_scenario_pnl`
(`none` until then). -/
structure Position where
  Ticker : String
  AssetClass : String
  MarketValueUSD : ℚ
  Beta_SPX : ℚ
  Duration : ℚ
  Delta_Oil : ℚ
  ScenarioPnL : Option ℚ
deriving DecidableEq, Repr

/-- Assemble the position DataFrame from its columns (rows are aligned by
index; all columns have the same length in the source). -/
def mkPositions : List String → List String → List ℚ → List ℚ → List ℚ → List ℚ → List Position
  | t :: ts, a :: as, m :: ms, b :: bs, d :: ds, o :: os =>
      ⟨t, a, m, b, d, o, none⟩ :: mkPositions ts as ms bs ds os
  | _, _, _, _, _, _ => []

/-- numpy's boolean-mask arithmetic: `True` is `1`, `False` is `0`. -/
def indQ (b : Bool) : ℚ := if b then 1 else 0

/-- Elementwise combination of the asset-class column with two numeric
columns (the masked-sum expressions of the source). -/
def zipWith3Q (f : String → ℚ → ℚ → ℚ) : List String → List ℚ → List ℚ → List ℚ
  | a :: as, b :: bs, c :: cs => f a b c :: zipWith3Q f as bs cs
  | _, _, _ => []

/-- `generate_dummy_positions` from `src/app.py`.  `g0` is the global numpy
random state at call time; the call installs `np.random.seed(seed)` and so
never reads `g0`.  Returns the DataFrame together with the global state
after the call. -/
def generate_dummy_positions_rng (portfolio_name : String) (g0 : NpRandom) :
    List Position × NpRandom :=
  let seed := charSum portfolio_name
  let g := np_random_seed seed
  let r0 := np_randint 10 30 g
  let n_positions := r0.1
  let tickers := (List.range n_positions).map (fun i => "TICKER_" ++ toString i)
  let ac := drawList np_choice_asset_class n_positions r0.2
  let asset_classes := ac.1
  let mv := drawList (np_uniform 50000 5000000) n_positions ac.2
  let be := drawList (np_normal 1 (1 / 2)) n_positions mv.2
  let bo := drawList (np_normal (1 / 10) (1 / 10)) n_positions be.2
  let du := drawList (np_normal 5 2) n_positions bo.2
  let dl := drawList (np_normal (1 / 20) (1 / 5)) n_positions du.2
  let beta_spx := zipWith3Q
    (fun a x y => x * indQ (a == "Equity") + y * indQ (a != "Equity"))
    asset_classes be.1 bo.1
  let duration := List.zipWith (fun d a => d * indQ (a == "Fixed Income")) du.1 asset_classes
  let delta_oil := List.zipWith (fun d a => d * indQ (a == "Commodity")) dl.1 asset_classes
  (mkPositions tickers asset_classes
    (mv.1.map (np_round 2))
    (beta_spx.map (np_round 3))
    (duration.map (fun x => np_round 3 (max 0 x)))
    (delta_oil.map (np_round 3)), dl.2)

/-- One row of the historical risk DataFrame built by
`generate_dummy_risk_history` (column names of the source). -/
structure RiskPoint where
  Date : ℤ
  NAV : ℚ
  VaR_99_USD : ℚ
  ES_99_USD : ℚ
  Drawdown_Pct : ℚ
deriving DecidableEq, Repr

/-- `nav_start * (1 + daily_returns).cumprod()`: the running product, scaled. -/
def cumprodScaled (acc : ℚ) : List ℚ → List ℚ
  | [] => []
  | r :: rs => acc * (1 + r) :: cumprodScaled (acc * (1 + r)) rs

/-- `pd.Series.cummax()`: the running maximum. -/
def cummax : List ℚ → List ℚ
  | [] => []
  | x :: xs => x :: (cummax xs).map (max x)

/-- The maximum of a list (`none` on the empty list); used to state what the
running maximum at an index is. -/
def listMax? : List ℚ → Option ℚ
  | [] => none
  | x :: xs => some (xs.foldl max x)

/-- Assemble the historical risk DataFrame from its columns. -/
def mkRiskPoints : List ℤ → List ℚ → List ℚ → List ℚ → List ℚ → List RiskPoint
  | d :: ds, n :: ns, v :: vs, e :: es, x :: xs =>
      ⟨d, n, v, e, x⟩ :: mkRiskPoints ds ns vs es xs
  | _, _, _, _, _ => []

/-- `generate_dummy_risk_history` from `src/app.py`.  `today` stands for
`datetime.today()` (as a day number); dates are the 504 calendar days ending
at `today`.  `g0` is the global numpy random state at call time (unread, as
the call reseeds).  Returns the DataFrame and the state after the call. -/
def generate_dummy_risk_history_rng (portfolio_name : String) (today : ℤ) (g0 : NpRandom) :
    List RiskPoint × NpRandom :=
  let seed := charSum portfolio_name + 1
  let g := np_random_seed seed
  let dates := (List.range (252 * 2)).map (fun (i : ℕ) => today - (252 * 2 - 1) + (i : ℤ))
  let nav_start : ℚ := 100000000
  let dr := drawList (np_normal (5 / 10000) (1 / 100)) (252 * 2) g
  let nav := cumprodScaled nav_start dr.1
  let uv := drawList (np_uniform (1 / 100) (3 / 100)) (252 * 2) dr.2
  let var_99 := List.zipWith (fun u n => u * n) uv.1 nav
  let ue := drawList (np_uniform (6 / 5) (3 / 2)) (252 * 2) uv.2
  let es_99 := List.zipWith (fun v m => v * m) var_99 ue.1
  let rolling_max := cummax nav
  let drawdown := List.zipWith (fun n m => (n - m) / m) nav rolling_max
  (mkRiskPoints dates nav var_99 es_99 drawdown, ue.2)

/-- `simulate_scenario_pnl` from `src/app.py`.  The source writes the new
column onto the caller's DataFrame (`positions_df["ScenarioPnL"] = ...`) and
then returns `positions_df` itself, so the call is modelled as producing the
pair (function return value, caller's frame after the call): both are the
same updated frame. -/
def simulate_scenario_pnl (positions_df : List Position)
    (spx_shock rates_shock_bps oil_shock : ℚ) : List Position × List Position :=
  let rates_shock_decimal := rates_shock_bps / 10000
  let updated := positions_df.map (fun p =>
    { p with ScenarioPnL := some (p.MarketValueUSD *
        (p.Beta_SPX * spx_shock + p.Delta_Oil * oil_shock - p.Duration * rates_shock_decimal)) })
  (updated, updated)

/-- An externally supplied position book seen as a raw DataFrame: each
required column may be absent. -/
structure RawBook where
  MarketValueUSD : Option (List ℚ)
  Beta_SPX : Option (List ℚ)
  Duration : Option (List ℚ)
  Delta_Oil : Option (List ℚ)
deriving DecidableEq, Repr

/-- The elementwise ScenarioPnL column computed by `simulate_scenario_pnl`. -/
def pnlColumn (spx oil rd : ℚ) : List ℚ → List ℚ → List ℚ → List ℚ → List ℚ
  | m :: ms, b :: bs, o :: os, d :: ds =>
      m * (b * spx + o * oil - d * rd) :: pnlColumn spx oil rd ms bs os ds
  | _, _, _, _ => []

/-- `simulate_scenario_pnl` applied to a raw external book: in pandas each
`positions_df[col]` lookup raises `KeyError` when the column is absent, and
the lookups happen in the source expression's evaluation order
(`MarketValueUSD`, `Beta_SPX`, `Delta_Oil`, `Duration`), so the first missing
column's error propagates; no value (in particular no sign of
`MarketValueUSD`) is ever validated. -/
def simulate_scenario_pnl_raw (positions_df : RawBook)
    (spx_shock rates_shock_bps oil_shock : ℚ) : Except String (List ℚ) :=
  let rates_shock_decimal := rates_shock_bps / 10000
  match positions_df.MarketValueUSD, positions_df.Beta_SPX,
      positions_df.Delta_Oil, positions_df.Duration with
  | some ms, some bs, some os, some ds =>
      Except.ok (pnlColumn spx_shock oil_shock rates_shock_decimal ms bs os ds)
  | none, _, _, _ => Except.error "KeyError: MarketValueUSD"
  | some _, none, _, _ => Except.error "KeyError: Beta_SPX"
  | some _, some _, none, _ => Except.error "KeyError: Delta_Oil"
  | some _, some _, some _, none => Except.error "KeyError: Duration"

/-- Whether an engine call returned a result (rather than raising). -/
def isOkB : Except String (List ℚ) → Bool
  | Except.ok _ => true
  | Except.error _ => false

/-- The populated `ScenarioPnL` value of a row. -/
def scenarioPnLValue (p : Position) : ℚ := p.ScenarioPnL.getD 0

/-- The distinct asset classes occurring in a book (`groupby` keys; pandas
additionally sorts them, which no stated invariant depends on). -/
def pnl_keys (df : List Position) : List String :=
  (df.map (fun p => p.AssetClass)).dedup

/-- One row of the scenario summary table. -/
structure SummaryRow where
  AssetClass : String
  TotalPnL : ℚ
  AvgPnL : Option ℚ
  NPositions : ℕ
deriving DecidableEq, Repr

/-- `df_results.groupby("AssetClass")["ScenarioPnL"].agg(["sum","mean","count"])`. -/
def summary (df : List Position) : List SummaryRow :=
  (pnl_keys df).map (fun c =>
    let grp := (df.filter (fun p => p.AssetClass == c)).map scenarioPnLValue
    ⟨c, grp.sum, some (grp.sum / grp.length), grp.length⟩)

/-- `total_pnl = df_results["ScenarioPnL"].sum()` (line 272 of the source). -/
def total_pnl (df : List Position) : ℚ := (df.map scenarioPnLValue).sum

/-- The grand-total row appended to the summary table: its sum is
`summary["Total PnL"].sum()`, its mean is `np.nan` (modelled `none`), its
count is `summary["N Positions"].sum()`. -/
def total_row (df : List Position) : SummaryRow :=
  ⟨"**TOTAL**",
   ((summary df).map (fun r => r.TotalPnL)).sum,
   none,
   ((summary df).map (fun r => r.NPositions)).sum⟩

/-! ### Basic facts about the modelled random stream -/

lemma npWord_lt (seed counter : ℕ) : npWord seed counter < 2 ^ 31 :=
  Nat.mod_lt _ (by norm_num)

lemma nextU_nonneg (s : NpRandom) : 0 ≤ (nextU s).1 := by
  unfold nextU
  positivity

lemma nextU_lt_one (s : NpRandom) : (nextU s).1 < 1 := by
  unfold nextU
  rw [div_lt_one (by positivity)]
  exact_mod_cast npWord_lt s.seed s.counter

lemma np_uniform_le (a b : ℚ) (hab : a ≤ b) (s : NpRandom) : a ≤ (np_uniform a b s).1 := by
  show a ≤ a + (b - a) * (nextU s).1
  nlinarith [nextU_nonneg s, nextU_lt_one s]

lemma np_uniform_lt (a b : ℚ) (hab : a < b) (s : NpRandom) : (np_uniform a b s).1 < b := by
  show a + (b - a) * (nextU s).1 < b
  nlinarith [nextU_nonneg s, nextU_lt_one s]

lemma np_normal_ge (mu sigma : ℚ) (hs : 0 ≤ sigma) (s : NpRandom) :
    mu - 6 * sigma ≤ (np_normal mu sigma s).1 := by
  show mu - 6 * sigma ≤ mu + sigma * (12 * (nextU s).1 - 6)
  nlinarith [nextU_nonneg s, nextU_lt_one s]

lemma drawList_mem {α : Type} (f : NpRandom → α × NpRandom) (P : α → Prop)
    (hf : ∀ s, P (f s).1) :
    ∀ (n : ℕ) (s : NpRandom), ∀ x ∈ (drawList f n s).1, P x := by
  intro n
  induction n with
  | zero => intro s x hx; simp [drawList] at hx
  | succ n ih =>
      intro s x hx
      simp only [drawList, List.mem_cons] at hx
      rcases hx with rfl | hx
      · exact hf s
      · exact ih _ x hx

lemma drawList_length {α : Type} (f : NpRandom → α × NpRandom) :
    ∀ (n : ℕ) (s : NpRandom), (drawList f n s).1.length = n := by
  intro n
  induction n with
  | zero => intro s; simp [drawList]
  | succ n ih => intro s; simp [drawList, ih]

/-! ### Facts about the cumulative-product and running-maximum columns -/

lemma cumprodScaled_pos : ∀ (rs : List ℚ) (acc : ℚ), 0 < acc →
    (∀ r ∈ rs, 0 < 1 + r) → ∀ x ∈ cumprodScaled acc rs, 0 < x := by
  intro rs
  induction rs with
  | nil => intro acc _ _ x hx; simp [cumprodScaled] at hx
  | cons r t ih =>
      intro acc hacc hr x hx
      simp only [cumprodScaled, List.mem_cons] at hx
      have hpos : 0 < acc * (1 + r) := mul_pos hacc (hr r (List.mem_cons_self r t))
      rcases hx with rfl | hx
      · exact hpos
      · exact ih _ hpos (fun r' hr' => hr r' (List.mem_cons_of_mem _ hr')) x hx

lemma cumprodScaled_length : ∀ (rs : List ℚ) (acc : ℚ),
    (cumprodScaled acc rs).length = rs.length := by
  intro rs
  induction rs with
  | nil => intro acc; simp [cumprodScaled]
  | cons r t ih => intro acc; simp [cumprodScaled, ih]

lemma cummax_length : ∀ (l : List ℚ), (cummax l).length = l.length := by
  intro l
  induction l with
  | nil => simp [cummax]
  | cons x t ih => simp [cummax, ih]

lemma foldl_max_comm (x : ℚ) : ∀ (l : List ℚ) (y : ℚ),
    l.foldl max (max x y) = max x (l.foldl max y) := by
  intro l
  induction l with
  | nil => intro y; simp
  | cons z zs ih =>
      intro y
      simp only [List.foldl_cons]
      rw [max_assoc, ih (max y z)]

lemma le_foldl_max_init : ∀ (l : List ℚ) (a : ℚ), a ≤ l.foldl max a := by
  intro l
  induction l with
  | nil => intro a; simp
  | cons x xs ih =>
      intro a
      simp only [List.foldl_cons]
      exact le_trans (le_max_left a x) (ih (max a x))

lemma le_foldl_max_mem : ∀ (l : List ℚ) (a x : ℚ), x ∈ l → x ≤ l.foldl max a := by
  intro l
  induction l with
  | nil => intro a x hx; cases hx
  | cons y ys ih =>
      intro a x hx
      rcases List.mem_cons.1 hx with rfl | hx
      · exact le_trans (le_max_right a x) (le_foldl_max_init ys (max a x))
      · exact ih (max a y) x hx

lemma foldl_max_mem : ∀ (l : List ℚ) (a : ℚ), l.foldl max a = a ∨ l.foldl max a ∈ l := by
  intro l
  induction l with
  | nil => intro a; left; rfl
  | cons y ys ih =>
      intro a
      rcases ih (max a y) with h | h
      · rcases max_choice a y with hm | hm
        · left; rw [List.foldl_cons, h, hm]
        · right; rw [List.foldl_cons, h, hm]; exact List.mem_cons_self y ys
      · right; exact List.mem_cons_of_mem y h

lemma listMax?_ge (l : List ℚ) (M : ℚ) (h : listMax? l = some M) :
    ∀ x ∈ l, x ≤ M := by
  cases l with
  | nil => simp [listMax?] at h
  | cons y ys =>
      simp only [listMax?, Option.some.injEq] at h
      intro x hx
      rcases List.mem_cons.1 hx with rfl | hx
      · rw [← h]; exact le_foldl_max_init ys x
      · rw [← h]; exact le_foldl_max_mem ys y x hx

lemma listMax?_mem (l : List ℚ) (M : ℚ) (h : listMax? l = some M) : M ∈ l := by
  cases l with
  | nil => simp [listMax?] at h
  | cons y ys =>
      simp only [listMax?, Option.some.injEq] at h
      rcases foldl_max_mem ys y with h' | h'
      · rw [← h, h']; exact List.mem_cons_self y ys
      · rw [← h]; exact List.mem_cons_of_mem y h'

lemma cummax_get? : ∀ (xs : List ℚ) (i : ℕ) (m : ℚ),
    (cummax xs).get? i = some m → listMax? (xs.take (i + 1)) = some m := by
  intro xs
  induction xs with
  | nil => intro i m h; simp [cummax] at h
  | cons x t ih =>
      intro i m h
      cases i with
      | zero =>
          simp only [cummax, List.get?] at h
          simp [listMax?, h]
      | succ i =>
          simp only [cummax, List.get?, List.get?_map] at h
          rcases Option.map_eq_some'.1 h with ⟨m', hm', rfl⟩
          have hIH := ih i m' hm'
          cases htake : t.take (i + 1) with
          | nil => rw [htake] at hIH; simp [listMax?] at hIH
          | cons y ys =>
              rw [htake] at hIH
              simp only [listMax?, Option.some.injEq] at hIH
              simp only [List.take_succ_cons, htake, listMax?, Option.some.injEq]
              rw [List.foldl_cons, foldl_max_comm x ys y, hIH]

lemma get?_take_lt : ∀ (l : List ℚ) (n i : ℕ), i < n → (l.take n).get? i = l.get? i := by
  intro l
  induction l with
  | nil => intro n i _; simp
  | cons x t ih =>
      intro n i h
      cases n with
      | zero => exact absurd h (Nat.not_lt_zero i)
      | succ n =>
          cases i with
          | zero => simp
          | succ i =>
              simp only [List.take_succ_cons, List.get?]
              exact ih n i (Nat.lt_of_succ_lt_succ h)

/-! ### Row/column correspondence for the assembled DataFrames -/

lemma get?_zipWithQ (f : ℚ → ℚ → ℚ) :
    ∀ (as bs : List ℚ) (i : ℕ) (c : ℚ), (List.zipWith f as bs).get? i = some c →
      ∃ a b, as.get? i = some a ∧ bs.get? i = some b ∧ c = f a b := by
  intro as
  induction as with
  | nil => intro bs i c h; simp at h
  | cons a as ih =>
      intro bs i c h
      cases bs with
      | nil => simp at h
      | cons b bs =>
          cases i with
          | zero =>
              refine ⟨a, b, rfl, rfl, ?_⟩
              simp only [List.zipWith, List.get?, Option.some.injEq] at h
              exact h.symm
          | succ i =>
              simp only [List.zipWith, List.get?] at h
              exact ih bs i c h

lemma get?_mkRiskPoints : ∀ (ds : List ℤ) (ns vs es xs : List ℚ) (i : ℕ) (p : RiskPoint),
    (mkRiskPoints ds ns vs es xs).get? i = some p →
      ds.get? i = some p.Date ∧ ns.get? i = some p.NAV ∧ vs.get? i = some p.VaR_99_USD ∧
      es.get? i = some p.ES_99_USD ∧ xs.get? i = some p.Drawdown_Pct := by
  intro ds
  induction ds with
  | nil => intro ns vs es xs i p h; simp [mkRiskPoints] at h
  | cons d ds ih =>
      intro ns vs es xs i p h
      cases ns with
      | nil => simp [mkRiskPoints] at h
      | cons n ns =>
      cases vs with
      | nil => simp [mkRiskPoints] at h
      | cons v vs =>
      cases es with
      | nil => simp [mkRiskPoints] at h
      | cons e es =>
      cases xs with
      | nil => simp [mkRiskPoints] at h
      | cons x xs =>
          cases i with
          | zero =>
              simp only [mkRiskPoints, List.get?, Option.some.injEq] at h
              subst h
              exact ⟨rfl, rfl, rfl, rfl, rfl⟩
          | succ i =>
              simp only [mkRiskPoints, List.get?] at h
              exact ih ns vs es xs i p h

lemma map_nav_mkRiskPoints : ∀ (ds : List ℤ) (ns vs es xs : List ℚ),
    ds.length = ns.length → ns.length = vs.length → vs.length = es.length →
    es.length = xs.length →
    (mkRiskPoints ds ns vs es xs).map RiskPoint.NAV = ns := by
  intro ds
  induction ds with
  | nil =>
      intro ns vs es xs h1 _ _ _
      cases ns with
      | nil => simp [mkRiskPoints]
      | cons n ns => simp at h1
  | cons d ds ih =>
      intro ns vs es xs h1 h2 h3 h4
      cases ns with
      | nil => simp at h1
      | cons n ns =>
      cases vs with
      | nil => simp at h2
      | cons v vs =>
      cases es with
      | nil => simp at h3
      | cons e es =>
      cases xs with
      | nil => simp at h4
      | cons x xs =>
          simp only [mkRiskPoints, List.map_cons]
          rw [ih ns vs es xs (by simpa using h1) (by simpa using h2) (by simpa using h3)
            (by simpa using h4)]

lemma mem_mkPositions : ∀ (ts as : List String) (ms bs ds os : List ℚ) (p : Position),
    p ∈ mkPositions ts as ms bs ds os → p.MarketValueUSD ∈ ms ∧ p.Duration ∈ ds := by
  intro ts
  induction ts with
  | nil => intro as ms bs ds os p h; simp [mkPositions] at h
  | cons t ts ih =>
      intro as ms bs ds os p h
      cases as with
      | nil => simp [mkPositions] at h
      | cons a as =>
      cases ms with
      | nil => simp [mkPositions] at h
      | cons m ms =>
      cases bs with
      | nil => simp [mkPositions] at h
      | cons b bs =>
      cases ds with
      | nil => simp [mkPositions] at h
      | cons d ds =>
      cases os with
      | nil => simp [mkPositions] at h
      | cons o os =>
          simp only [mkPositions, List.mem_cons] at h
          rcases h with rfl | h
          · exact ⟨List.mem_cons_self m ms, List.mem_cons_self d ds⟩
          · rcases ih as ms bs ds os p h with ⟨h1, h2⟩
            exact ⟨List.mem_cons_of_mem m h1, List.mem_cons_of_mem d h2⟩

/-! ### Rounding facts -/

lemma round_nonnegQ (x : ℚ) (hx : 0 ≤ x) : (0 : ℤ) ≤ round x := by
  rw [round_eq]
  exact Int.le_floor.2 (by push_cast; linarith)

lemma np_round_nonneg (d : ℕ) (x : ℚ) (hx : 0 ≤ x) : 0 ≤ np_round d x := by
  unfold np_round
  apply div_nonneg _ (by positivity)
  exact_mod_cast round_nonnegQ (x * 10 ^ d) (by positivity)

lemma np_round_pos_of_ge_one (d : ℕ) (x : ℚ) (hx : 1 ≤ x) : 0 < np_round d x := by
  unfold np_round
  apply div_pos _ (by positivity)
  have h1 : |x * 10 ^ d - round (x * 10 ^ d)| ≤ 1 / 2 := abs_sub_round (x * 10 ^ d)
  have h2 : x * 10 ^ d - (round (x * 10 ^ d) : ℚ) ≤ 1 / 2 := le_trans (le_abs_self _) h1
  have hp : (1 : ℚ) ≤ 10 ^ d := by
    have h10 : (10 : ℚ) ^ 0 ≤ 10 ^ d := pow_le_pow_right (by norm_num) (Nat.zero_le d)
    simpa using h10
  have h3 : (1 : ℚ) ≤ x * 10 ^ d := by nlinarith
  linarith

/-! ### Fiberwise summation for the groupby aggregation -/

lemma sum_map_ite_zeroQ (x : ℚ) (k : String) (ks : List String) (h : k ∉ ks) :
    (ks.map fun c => if k = c then x else 0).sum = 0 := by
  induction ks with
  | nil => simp
  | cons c t ih =>
      simp only [List.mem_cons, not_or] at h
      simp [List.map_cons, List.sum_cons, if_neg h.1, ih h.2]

lemma sum_map_iteQ (x : ℚ) (k : String) (ks : List String) (hnd : ks.Nodup) (hk : k ∈ ks) :
    (ks.map fun c => if k = c then x else 0).sum = x := by
  induction ks with
  | nil => cases hk
  | cons c t ih =>
      rcases List.mem_cons.1 hk with h | h
      · subst h
        have hnotin : k ∉ t := (List.nodup_cons.1 hnd).1
        simp [sum_map_ite_zeroQ x k t hnotin]
      · have hkc : k ≠ c := by
          intro e
          exact (List.nodup_cons.1 hnd).1 (e ▸ h)
        simp [if_neg hkc, ih (List.nodup_cons.1 hnd).2 h]

lemma sum_map_addQ (f g : String → ℚ) (ks : List String) :
    (ks.map fun c => f c + g c).sum = (ks.map f).sum + (ks.map g).sum := by
  induction ks with
  | nil => simp
  | cons c t ih =>
      simp only [List.map_cons, List.sum_cons, ih]
      ring

lemma sum_filter_keys (l : List Position) (ks : List String) (hnd : ks.Nodup)
    (hcov : ∀ p ∈ l, p.AssetClass ∈ ks) :
    (ks.map fun c => ((l.filter fun p => p.AssetClass == c).map scenarioPnLValue).sum).sum
      = (l.map scenarioPnLValue).sum := by
  induction l with
  | nil =>
      rw [List.sum_eq_zero]
      · simp
      · intro x hx
        rcases List.mem_map.1 hx with ⟨c, _, rfl⟩
        simp
  | cons p t ih =>
      have step : ∀ c : String,
          ((List.filter (fun q => q.AssetClass == c) (p :: t)).map scenarioPnLValue).sum
            = (if p.AssetClass = c then scenarioPnLValue p else 0)
              + ((t.filter fun q => q.AssetClass == c).map scenarioPnLValue).sum := by
        intro c
        by_cases h : p.AssetClass = c
        · rw [List.filter_cons_of_pos (by simpa using h), List.map_cons, List.sum_cons,
            if_pos h]
        · rw [List.filter_cons_of_neg (by simpa using h), if_neg h, zero_add]
      have hmap : (ks.map fun c =>
            ((List.filter (fun q => q.AssetClass == c) (p :: t)).map scenarioPnLValue).sum)
          = ks.map fun c => (if p.AssetClass = c then scenarioPnLValue p else 0)
              + ((t.filter fun q => q.AssetClass == c).map scenarioPnLValue).sum := by
        apply List.map_congr_left
        intro c _
        exact step c
      rw [hmap, sum_map_addQ,
        sum_map_iteQ _ _ ks hnd (hcov p (List.mem_cons_self p t)),
        ih (fun q hq => hcov q (List.mem_cons_of_mem p hq))]
      simp

/-! ### Claims about the scenario engine and the aggregation

The arithmetic of `ℚ` is restored to its definitional behaviour so that
concrete runs of the engine can be settled by `decide`. -/

attribute [local semireducible] Rat.mul Rat.add Rat.sub Rat.inv Rat.ofScientific

set_option maxRecDepth 40000

/-- C1 (counterexample): `simulate_scenario_pnl` is not pure — after the call
the caller's DataFrame is no longer equal to what the caller supplied (the
`ScenarioPnL` column has been written onto it in place). -/
theorem c1_purity_counterexample :
    (simulate_scenario_pnl [⟨"TICKER_0", "Equity", 100, 1, 0, 0, none⟩] 0 0 0).2 ≠
      [⟨"TICKER_0", "Equity", 100, 1, 0, 0, none⟩] := by decide

/-- C1 (amended): `simulate_scenario_pnl` populates `ScenarioPnL` by the linear
shock formula, but it does so by mutating the caller's DataFrame in place and
returning that same frame: the returned sequence and the caller's sequence
after the call are one and the same (aliased), not an independent copy. -/
theorem c1_in_place_aliasing (df : List Position) (spx_shock rates_shock_bps oil_shock : ℚ) :
    (simulate_scenario_pnl df spx_shock rates_shock_bps oil_shock).2 =
      (simulate_scenario_pnl df spx_shock rates_shock_bps oil_shock).1 ∧
    (simulate_scenario_pnl df spx_shock rates_shock_bps oil_shock).2 =
      df.map (fun p => { p with ScenarioPnL := some (p.MarketValueUSD *
        (p.Beta_SPX * spx_shock + p.Delta_Oil * oil_shock -
          p.Duration * (rates_shock_bps / 10000))) }) :=
  ⟨rfl, rfl⟩

/-- C3: the engine computes
`scenarioPnl = marketValueUSD * (betaSpx*spxShock + deltaOil*oilShock -
duration*(ratesShockBps/10000))` for every position and every shock triple;
in particular a position with duration 4, market value 1,000,000 and zero
beta/oil delta gets exactly -40,000 under a +100bps rate shock. -/
theorem c3_linear_formula_and_rate_sign :
    (∀ (df : List Position) (spx_shock rates_shock_bps oil_shock : ℚ),
      (simulate_scenario_pnl df spx_shock rates_shock_bps oil_shock).1.map
          (fun p => p.ScenarioPnL) =
        df.map (fun p => some (p.MarketValueUSD * (p.Beta_SPX * spx_shock +
          p.Delta_Oil * oil_shock - p.Duration * (rates_shock_bps / 10000))))) ∧
    (simulate_scenario_pnl [⟨"TICKER_0", "Fixed Income", 1000000, 0, 4, 0, none⟩]
        0 100 0).1.map (fun p => p.ScenarioPnL) = [some (-40000)] := by
  constructor
  · intro df spx_shock rates_shock_bps oil_shock
    show (df.map _).map _ = _
    rw [List.map_map]
    rfl
  · decide

/-- C7: applying the all-zero shock yields `scenarioPnl = 0` for every
position of any book. -/
theorem c7_zero_shock_identity (df : List Position) :
    (simulate_scenario_pnl df 0 0 0).1 =
      df.map (fun p => { p with ScenarioPnL := some 0 }) := by
  show df.map _ = _
  have hfun : (fun p : Position => { p with ScenarioPnL := some (p.MarketValueUSD *
      (p.Beta_SPX * 0 + p.Delta_Oil * 0 - p.Duration * ((0 : ℚ) / 10000))) }) =
      fun p : Position => { p with ScenarioPnL := some 0 } := by
    funext p
    norm_num
  rw [hfun]

/-- C2: conservation — the `total_pnl` computed from the position column, the
sum of `scenarioPnl` over positions, and the grand-total row's sum (the sum of
the per-asset-class group sums) are all exactly equal. -/
theorem c2_conservation (df : List Position)
    (hpop : ∀ p ∈ df, p.ScenarioPnL.isSome = true) :
    total_pnl df = (df.map scenarioPnLValue).sum ∧
    (total_row df).TotalPnL = ((summary df).map (fun r => r.TotalPnL)).sum ∧
    total_pnl df = (total_row df).TotalPnL := by
  refine ⟨rfl, rfl, ?_⟩
  show (df.map scenarioPnLValue).sum = ((summary df).map (fun r => r.TotalPnL)).sum
  rw [summary, List.map_map]
  exact (sum_filter_keys df (pnl_keys df) (List.nodup_dedup _)
    (fun p hp => List.mem_dedup.2 (List.mem_map_of_mem _ hp))).symm

/-- C2 witness: the conservation equality at a concrete two-position book. -/
theorem c2_conservation_witness :
    (∀ p ∈ ([⟨"TICKER_0", "Equity", 100, 1, 0, 0, some 5⟩,
             ⟨"TICKER_1", "FX", 200, 0, 0, 0, some 7⟩] : List Position),
      p.ScenarioPnL.isSome = true) ∧
    total_pnl [⟨"TICKER_0", "Equity", 100, 1, 0, 0, some 5⟩,
               ⟨"TICKER_1", "FX", 200, 0, 0, 0, some 7⟩] =
      (total_row [⟨"TICKER_0", "Equity", 100, 1, 0, 0, some 5⟩,
                  ⟨"TICKER_1", "FX", 200, 0, 0, 0, some 7⟩]).TotalPnL :=
  ⟨by decide, (c2_conservation _ (by decide)).2.2⟩

/-- C9 (counterexample): a book containing a position with negative
`marketValueUSD` does not make the engine signal an error — the call returns
a normal result. -/
theorem c9_no_check_counterexample :
    simulate_scenario_pnl_raw ⟨some [-1], some [0], some [0], some [0]⟩ 0 0 0 =
      Except.ok [0] := by
  show Except.ok (pnlColumn 0 0 ((0 : ℚ) / 10000) [-1] [0] [0] [0]) = Except.ok [0]
  norm_num [pnlColumn]

/-- C9 (amended): the engine signals an error exactly when the externally
supplied book is missing one of the required columns (`KeyError` from the
column lookup); a negative or zero `marketValueUSD` is never validated and
produces a normal result. -/
theorem c9_error_iff_missing_column (df : RawBook) (spx rates oil : ℚ) :
    isOkB (simulate_scenario_pnl_raw df spx rates oil) = true ↔
      (df.MarketValueUSD.isSome = true ∧ df.Beta_SPX.isSome = true ∧
       df.Delta_Oil.isSome = true ∧ df.Duration.isSome = true) := by
  obtain ⟨m, b, d, o⟩ := df
  cases m <;> cases b <;> cases d <;> cases o <;>
    simp [simulate_scenario_pnl_raw, isOkB]

/-! ### Claims about the deterministic generators -/

/-- C4: determinism — two calls to `generate_dummy_positions` with the same
portfolio identifier in the same process return identical DataFrames (every
column equal), regardless of the global random state each call starts from,
because the call reseeds the global generator from the identifier. -/
theorem c4_determinism (portfolio_name : String) (g1 g2 : NpRandom) :
    (generate_dummy_positions_rng portfolio_name g1).1 =
      (generate_dummy_positions_rng portfolio_name g2).1 := rfl

/-- C10: seed collision — both generators depend on the identifier only
through the sum of its character codes, so any two identifiers with equal
character-code sums (e.g. anagrams) produce identical position books and
identical risk series. -/
theorem c10_seed_collision (s1 s2 : String) (today : ℤ) (g1 g2 : NpRandom)
    (h : charSum s1 = charSum s2) :
    (generate_dummy_positions_rng s1 g1).1 = (generate_dummy_positions_rng s2 g2).1 ∧
    (generate_dummy_risk_history_rng s1 today g1).1 =
      (generate_dummy_risk_history_rng s2 today g2).1 := by
  refine ⟨?_, ?_⟩ <;>
    simp only [generate_dummy_positions_rng, generate_dummy_risk_history_rng, h]

/-- C10 witness: the distinct anagrams "AB" and "BA" have equal character-code
sums and get identical generated data. -/
theorem c10_seed_collision_witness :
    charSum "AB" = charSum "BA" ∧
    (generate_dummy_positions_rng "AB" ⟨0, 0⟩).1 =
      (generate_dummy_positions_rng "BA" ⟨0, 0⟩).1 ∧
    (generate_dummy_risk_history_rng "AB" 0 ⟨0, 0⟩).1 =
      (generate_dummy_risk_history_rng "BA" 0 ⟨0, 0⟩).1 :=
  ⟨by decide, (c10_seed_collision "AB" "BA" 0 ⟨0, 0⟩ ⟨0, 0⟩ (by decide)).1,
   (c10_seed_collision "AB" "BA" 0 ⟨0, 0⟩ ⟨0, 0⟩ (by decide)).2⟩

/-- C8: every generated position has `duration ≥ 0` (the column is clamped at
generation time) and `marketValueUSD > 0` (drawn in `[50000, 5000000)` and
rounded to 2 decimals). -/
theorem c8_generation_invariant (portfolio_name : String) (g : NpRandom) (p : Position)
    (hp : p ∈ (generate_dummy_positions_rng portfolio_name g).1) :
    0 ≤ p.Duration ∧ 0 < p.MarketValueUSD := by
  simp only [generate_dummy_positions_rng] at hp
  have h := mem_mkPositions _ _ _ _ _ _ p hp
  constructor
  · rcases List.mem_map.1 h.2 with ⟨x, _, hxe⟩
    rw [← hxe]
    exact np_round_nonneg 3 (max 0 x) (le_max_left 0 x)
  · rcases List.mem_map.1 h.1 with ⟨x, hx, hxe⟩
    rw [← hxe]
    have hxge : (50000 : ℚ) ≤ x :=
      drawList_mem (np_uniform 50000 5000000) (fun y => 50000 ≤ y)
        (fun s => np_uniform_le 50000 5000000 (by norm_num) s) _ _ x hx
    exact np_round_pos_of_ge_one 2 x (by linarith)

/-- C8 witness: the invariant at the first generated position of
portfolio "A". -/
theorem c8_generation_invariant_witness :
    0 ≤ (Position.mk "TICKER_0" "Fixed Income" (83757739 / 50) (513 / 1000)
      (933 / 125) 0 none).Duration ∧
    0 < (Position.mk "TICKER_0" "Fixed Income" (83757739 / 50) (513 / 1000)
      (933 / 125) 0 none).MarketValueUSD := by
  have h0 : (generate_dummy_positions_rng "A" ⟨0, 0⟩).1.get? 0 =
      some (Position.mk "TICKER_0" "Fixed Income" (83757739 / 50) (513 / 1000)
        (933 / 125) 0 none) := by decide
  exact c8_generation_invariant "A" ⟨0, 0⟩ _ (List.get?_mem h0)

/-- C5: ES dominance — at every point of the generated risk series both
`var99Usd` and `es99Usd` are positive and `es99Usd ≥ var99Usd`. -/
theorem c5_es_dominance (portfolio_name : String) (today : ℤ) (g : NpRandom) (p : RiskPoint)
    (hp : p ∈ (generate_dummy_risk_history_rng portfolio_name today g).1) :
    0 < p.VaR_99_USD ∧ 0 < p.ES_99_USD ∧ p.VaR_99_USD ≤ p.ES_99_USD := by
  simp only [generate_dummy_risk_history_rng] at hp
  rcases List.get?_of_mem hp with ⟨i, hi⟩
  rcases get?_mkRiskPoints _ _ _ _ _ i p hi with ⟨hd, hn, hv, he, hx⟩
  rcases get?_zipWithQ _ _ _ _ _ hv with ⟨u, n, hu, hn2, hveq⟩
  have hnn : n = p.NAV := Option.some.inj (hn2.symm.trans hn)
  have hub : (1 : ℚ) / 100 ≤ u :=
    drawList_mem (np_uniform (1 / 100) (3 / 100)) (fun y => 1 / 100 ≤ y)
      (fun s => np_uniform_le (1 / 100) (3 / 100) (by norm_num) s) _ _ u (List.get?_mem hu)
  have hret : ∀ r ∈ (drawList (np_normal (5 / 10000) (1 / 100)) (252 * 2)
      (np_random_seed (charSum portfolio_name + 1))).1, 0 < 1 + r := by
    intro r hr
    have h6 := drawList_mem (np_normal (5 / 10000) (1 / 100))
      (fun y => 5 / 10000 - 6 * (1 / 100) ≤ y)
      (fun s => np_normal_ge (5 / 10000) (1 / 100) (by norm_num) s) _ _ r hr
    simp only at h6
    linarith
  have hnavpos : 0 < p.NAV :=
    cumprodScaled_pos _ (100000000 : ℚ) (by norm_num) hret p.NAV (List.get?_mem hn)
  have hvarpos : 0 < p.VaR_99_USD := by
    rw [hveq, hnn]
    exact mul_pos (lt_of_lt_of_le (by norm_num) hub) hnavpos
  rcases get?_zipWithQ _ _ _ _ _ he with ⟨v, m, hv2, hm, heeq⟩
  have hvv : v = p.VaR_99_USD := Option.some.inj (hv2.symm.trans hv)
  have hmb : (6 : ℚ) / 5 ≤ m :=
    drawList_mem (np_uniform (6 / 5) (3 / 2)) (fun y => 6 / 5 ≤ y)
      (fun s => np_uniform_le (6 / 5) (3 / 2) (by norm_num) s) _ _ m (List.get?_mem hm)
  refine ⟨hvarpos, ?_, ?_⟩
  · rw [heeq, hvv]
    exact mul_pos hvarpos (lt_of_lt_of_le (by norm_num) hmb)
  · rw [heeq, hvv]
    nlinarith [hvarpos, hmb]

/-- C5 witness: ES dominance at the first point of portfolio "A"'s series. -/
theorem c5_es_dominance_witness :
    0 < (RiskPoint.mk (-503) (13001947865625 / 131072)
        (156871053021092689875 / 70368744177664)
        (60870516232636834544360938275 / 18889465931478580854784) 0).VaR_99_USD ∧
    0 < (RiskPoint.mk (-503) (13001947865625 / 131072)
        (156871053021092689875 / 70368744177664)
        (60870516232636834544360938275 / 18889465931478580854784) 0).ES_99_USD ∧
    (RiskPoint.mk (-503) (13001947865625 / 131072)
        (156871053021092689875 / 70368744177664)
        (60870516232636834544360938275 / 18889465931478580854784) 0).VaR_99_USD ≤
      (RiskPoint.mk (-503) (13001947865625 / 131072)
        (156871053021092689875 / 70368744177664)
        (60870516232636834544360938275 / 18889465931478580854784) 0).ES_99_USD := by
  have h0 : (generate_dummy_risk_history_rng "A" 0 ⟨0, 0⟩).1.get? 0 =
      some (RiskPoint.mk (-503) (13001947865625 / 131072)
        (156871053021092689875 / 70368744177664)
        (60870516232636834544360938275 / 18889465931478580854784) 0) := by decide
  exact c5_es_dominance "A" 0 ⟨0, 0⟩ _ (List.get?_mem h0)

/-- C6: drawdown bound — at every point of the generated risk series the
drawdown is nonpositive; it equals `(nav - M) / M` where `M` is the maximum
of `nav` over the series up to and including that point (so it is `0` exactly
when the point is a new all-time high). -/
theorem c6_drawdown_bound (portfolio_name : String) (today : ℤ) (g : NpRandom) (p : RiskPoint)
    (hp : p ∈ (generate_dummy_risk_history_rng portfolio_name today g).1) :
    p.Drawdown_Pct ≤ 0 ∧
    ∃ i M, (generate_dummy_risk_history_rng portfolio_name today g).1.get? i = some p ∧
      listMax? (((generate_dummy_risk_history_rng portfolio_name today g).1.map
          RiskPoint.NAV).take (i + 1)) = some M ∧
      0 < M ∧ p.NAV ≤ M ∧ p.Drawdown_Pct = (p.NAV - M) / M ∧
      (p.NAV = M → p.Drawdown_Pct = 0) := by
  simp only [generate_dummy_risk_history_rng] at hp ⊢
  rcases List.get?_of_mem hp with ⟨i, hi⟩
  rcases get?_mkRiskPoints _ _ _ _ _ i p hi with ⟨hd, hn, hv, he, hx⟩
  rcases get?_zipWithQ _ _ _ _ _ hx with ⟨n, m, hn2, hm, hxeq⟩
  have hnn : n = p.NAV := Option.some.inj (hn2.symm.trans hn)
  have hret : ∀ r ∈ (drawList (np_normal (5 / 10000) (1 / 100)) (252 * 2)
      (np_random_seed (charSum portfolio_name + 1))).1, 0 < 1 + r := by
    intro r hr
    have h6 := drawList_mem (np_normal (5 / 10000) (1 / 100))
      (fun y => 5 / 10000 - 6 * (1 / 100) ≤ y)
      (fun s => np_normal_ge (5 / 10000) (1 / 100) (by norm_num) s) _ _ r hr
    simp only at h6
    linarith
  have hnavall := cumprodScaled_pos _ (100000000 : ℚ) (by norm_num) hret
  have hmax := cummax_get? _ i m hm
  have hMpos : 0 < m := hnavall m (List.take_subset _ _ (listMax?_mem _ _ hmax))
  have hnavle : p.NAV ≤ m := listMax?_ge _ _ hmax p.NAV
    (List.get?_mem (Eq.trans (get?_take_lt _ _ _ (Nat.lt_succ_self i)) hn))
  refine ⟨?_, i, m, hi, ?_, hMpos, hnavle, ?_, ?_⟩
  · rw [hxeq, hnn]
    have hle : p.NAV - m ≤ 0 := sub_nonpos.2 hnavle
    exact div_nonpos_iff.mpr (Or.inr ⟨hle, hMpos.le⟩)
  · rw [map_nav_mkRiskPoints]
    · exact hmax
    · simp [cumprodScaled_length, drawList_length]
    · simp [cumprodScaled_length, drawList_length, List.length_zipWith]
    · simp [cumprodScaled_length, drawList_length, List.length_zipWith]
    · simp [cumprodScaled_length, drawList_length, cummax_length, List.length_zipWith]
  · rw [hxeq, hnn]
  · intro heq
    rw [hxeq, hnn, heq, sub_self, zero_div]

/-- C6 witness: the drawdown bound at the first point of portfolio "A"'s
series (a new all-time high, so the drawdown is zero there). -/
theorem c6_drawdown_bound_witness :
    (RiskPoint.mk (-503) (13001947865625 / 131072)
        (156871053021092689875 / 70368744177664)
        (60870516232636834544360938275 / 18889465931478580854784) 0).Drawdown_Pct ≤ 0 := by
  have h0 : (generate_dummy_risk_history_rng "A" 0 ⟨0, 0⟩).1.get? 0 =
      some (RiskPoint.mk (-503) (13001947865625 / 131072)
        (156871053021092689875 / 70368744177664)
        (60870516232636834544360938275 / 18889465931478580854784) 0) := by decide
  exact (c6_drawdown_bound "A" 0 ⟨0, 0⟩ _ (List.get?_mem h0)).1
